import Mathlib

/-!
Shallow embedding of the hook-dispatch core of the `go-claude-hook`
repository: the verdict types and their constructors (`src/types/types.go`),
the plugin registry (`src/types/plugin.go`), and the dispatch /
decision-reduction pipeline (`src/main.go`).  Go maps decoded from JSON are
modelled as association lists with unique keys, Go `error` values as
`Option String`, and process termination as a pure function returning the
printed payload (with its stream) and the exit code.
-/

namespace ClaudeHooks

/-- A JSON value, as produced by Go's `encoding/json` generic decoding
(`map[string]any` objects become association lists here; numbers are kept
abstract as integers since no code under verification inspects them). -/
inductive Json where
  | null : Json
  | bool (b : Bool) : Json
  | str (s : String) : Json
  | num (n : Int) : Json
  | arr (elems : List Json) : Json
  | obj (fields : List (String × Json)) : Json

/-- Indexing a decoded JSON object (Go `m[k]`): the value at key `k`,
or `none` when the key is absent. -/
def lookupKey (m : List (String × Json)) (k : String) : Option Json :=
  (m.find? (fun p => p.1 == k)).map (fun p => p.2)

/-- Go's type assertion `v.(string)` on a generic JSON value: succeeds
exactly on JSON strings. -/
def asString : Option Json → Option String
  | some (Json.str s) => some s
  | _ => none

def escapeJsonChar (c : Char) : String :=
  if c = '"' then "\\\""
  else if c = '\\' then "\\\\"
  else if c = '\n' then "\\n"
  else if c = '\t' then "\\t"
  else if c = '\r' then "\\r"
  else String.singleton c

def escapeJsonString (s : String) : String :=
  String.join (s.toList.map escapeJsonChar)

mutual

/-- Serializing a JSON value to bytes (Go `json.Marshal`). -/
def encodeJson : Json → String
  | Json.null => "null"
  | Json.bool b => cond b "true" "false"
  | Json.str s => "\"" ++ escapeJsonString s ++ "\""
  | Json.num n => toString n
  | Json.arr xs => "[" ++ encodeJsonList xs ++ "]"
  | Json.obj fs => "\x7b" ++ encodeJsonFields fs ++ "\x7d"

def encodeJsonList : List Json → String
  | [] => ""
  | [j] => encodeJson j
  | j :: js => encodeJson j ++ "," ++ encodeJsonList js

def encodeJsonFields : List (String × Json) → String
  | [] => ""
  | [(k, j)] => "\"" ++ escapeJsonString k ++ "\":" ++ encodeJson j
  | (k, j) :: fs =>
      "\"" ++ escapeJsonString k ++ "\":" ++ encodeJson j ++ "," ++ encodeJsonFields fs

end

/-- `types.ExitCodeSuccess`: success, payload shown to the user. -/
def ExitCodeSuccess : Nat := 0

/-- `types.ExitCodeBlockingError`: blocking error, stderr content is fed
back to the supervising caller. -/
def ExitCodeBlockingError : Nat := 2

/-- `types.ExitCodeError`: other error, stderr shown to the user. -/
def ExitCodeError : Nat := 1

/-- `types.Result`: the outcome of processing one plugin for one event. -/
structure Result where
  Code : Nat
  Error : String := ""
  Data : String := ""
deriving DecidableEq, Repr

/-- `types.NewSuccess`. -/
def NewSuccess (data : String) : Result :=
  { Code := ExitCodeSuccess, Data := data }

/-- `types.NewError`. -/
def NewError (msg : String) : Result :=
  { Code := ExitCodeError, Error := msg }

/-- `types.Result.IsSuccess`. -/
def Result.IsSuccess (r : Result) : Bool :=
  r.Code == ExitCodeSuccess

/-- The two process output streams. -/
inductive StdStream where
  | stdout : StdStream
  | stderr : StdStream
deriving DecidableEq, Repr

/-- `types.Result.ExitWithMessage`, modelled purely: the payload printed
(with the stream it is printed to, `none` when nothing is printed) and the
process exit code.  Note that the source prints to `os.Stderr` in *both*
branches: the success branch is `fmt.Fprintf(os.Stderr, r.Data)`
(types.go line 195). -/
def Result.ExitWithMessage (r : Result) : Option (StdStream × String) × Nat :=
  if r.IsSuccess then
    (if r.Data.length > 0 then some (StdStream.stderr, r.Data) else none, r.Code)
  else
    (if r.Error.length > 0 then some (StdStream.stderr, r.Error) else none, r.Code)

/-- `types.BaseHookOutput`: fields shared by every verdict kind.  Go's
`*bool` field `Continue` (JSON tag `continue,omitempty`) is an
`Option Bool`; the zero value of the struct has every field unset. -/
structure BaseHookOutput where
  Continue : Option Bool := none
  StopReason : String := ""
  SuppressOutput : Bool := false
deriving DecidableEq, Repr

/-- `types.DecisionOutput`: a decision-bearing verdict.  `Decision` and
`Reason` are Go `*string` fields with JSON tag `omitzero`. -/
structure DecisionOutput extends BaseHookOutput where
  Decision : Option String := none
  Reason : Option String := none
deriving DecidableEq, Repr

/-- `types.PreToolUseOutput` (defined type over `DecisionOutput`). -/
abbrev PreToolUseOutput := DecisionOutput

/-- `types.PostToolUseOutput` (defined type over `DecisionOutput`). -/
abbrev PostToolUseOutput := DecisionOutput

/-- `types.StopOutput` (defined type over `DecisionOutput`). -/
abbrev StopOutput := DecisionOutput

/-- `(*types.PreToolUseOutput).Approve`: Go's variadic `msg ...string` is a
list; the block branch falls back to `"rejected"` only when no message
argument was supplied at all. -/
def PreToolUseOutput.Approve (o : PreToolUseOutput) (approved : Bool)
    (msg : List String) : PreToolUseOutput :=
  if approved then
    { o with Decision := some "approve",
             Reason := match msg.head? with
               | some m => some m
               | none => o.Reason }
  else
    { o with Decision := some "block",
             Reason := match msg.head? with
               | some m => some m
               | none => some "rejected" }

/-- `(*types.PreToolUseOutput).Default`: sets `Continue` to true when unset
and then calls `Approve(true, "")` (one empty-string message argument). -/
def PreToolUseOutput.Default (o : PreToolUseOutput) : PreToolUseOutput :=
  let o1 := if o.Continue = none then { o with Continue := some true } else o
  PreToolUseOutput.Approve o1 true [""]

/-- `(*types.PostToolUseOutput).Default`. -/
def PostToolUseOutput.Default (o : PostToolUseOutput) : PostToolUseOutput :=
  if o.Continue = none then { o with Continue := some true } else o

/-- `(*types.PostToolUseOutput).Block`. -/
def PostToolUseOutput.Block (o : PostToolUseOutput) (msg : String) : PostToolUseOutput :=
  { o with Decision := some "block", Reason := some msg }

/-- `(*types.StopOutput).Default`. -/
def StopOutput.Default (o : StopOutput) : StopOutput :=
  if o.Continue = none then { o with Continue := some true } else o

/-- `(*types.StopOutput).NotAllowed`. -/
def StopOutput.NotAllowed (o : StopOutput) (msg : String) : StopOutput :=
  { o with Decision := some "block", Reason := some msg }

/-- `json.Marshal` of a `BaseHookOutput`, field by field in struct order:
`continue` has `omitempty` on a `*bool` (omitted exactly when nil),
`stopReason` has `omitempty` on a string (omitted when empty),
`suppressOutput` has `omitempty` on a bool (omitted when false). -/
def marshalBaseFields (o : BaseHookOutput) : List (String × Json) :=
  (match o.Continue with
    | some b => [("continue", Json.bool b)]
    | none => []) ++
  (if o.StopReason = "" then [] else [("stopReason", Json.str o.StopReason)]) ++
  (if o.SuppressOutput then [("suppressOutput", Json.bool o.SuppressOutput)] else [])

/-- `json.Marshal` of a `DecisionOutput`: the embedded base fields followed
by `decision` and `reason`, whose `omitzero` tag (honored by the
`encoding/json` of Go 1.24 and later) omits a nil pointer entirely. -/
def marshalDecisionOutput (o : DecisionOutput) : List (String × Json) :=
  marshalBaseFields o.toBaseHookOutput ++
  (match o.Decision with
    | some d => [("decision", Json.str d)]
    | none => []) ++
  (match o.Reason with
    | some r => [("reason", Json.str r)]
    | none => [])

/-- `json.Marshal` of a possibly-nil pointer to a struct whose fields are
given by `fields`: a nil pointer marshals to JSON `null`. -/
def marshalPtr (o : Option (List (String × Json))) : Json :=
  match o with
  | some fields => Json.obj fields
  | none => Json.null

/-- `types.BaseHookInput`. -/
structure BaseHookInput where
  SessionID : String := ""
  TranscriptPath : String := ""
  HookEventName : String := ""
deriving DecidableEq, Repr

/-- `types.ToolInput`.  The Go field is itself named `ToolInput` (same as
the struct); Lean cannot reuse that name inside the structure, so the
map-valued field is `ToolInputMap` here.  A nil Go map is the empty
association list. -/
structure ToolInput extends BaseHookInput where
  ToolName : String := ""
  ToolInputMap : List (String × Json) := []

/-- `(*types.ToolInput).GetFilePath`: `t.ToolInput["file_path"].(string)`,
returning the empty string when the key is absent or not a string. -/
def ToolInput.GetFilePath (t : ToolInput) : String :=
  match asString (lookupKey t.ToolInputMap "file_path") with
  | some filePath => filePath
  | none => ""

/-- `types.PostToolUseInput`. -/
structure PostToolUseInput extends ToolInput where
  ToolResponse : List (String × Json) := []

/-- `types.NotificationInput`. -/
structure NotificationInput extends BaseHookInput where
  Message : String := ""

/-- `types.StopInput`. -/
structure StopInput extends BaseHookInput where
  StopHookActive : Bool := false

/-- `types.SubagentStopInput`. -/
structure SubagentStopInput extends BaseHookInput where
  StopHookActive : Bool := false

/-- Go `json.Unmarshal` of one string-typed struct field from a decoded
object: a missing key or JSON `null` leaves the zero value; a JSON string
is taken; any other value is an unmarshal type error. -/
def decodeStringField (m : List (String × Json)) (k : String) : Except String String :=
  match lookupKey m k with
  | none => Except.ok ""
  | some Json.null => Except.ok ""
  | some (Json.str s) => Except.ok s
  | some _ => Except.error ("cannot unmarshal field " ++ k)

/-- Go `json.Unmarshal` of one bool-typed struct field. -/
def decodeBoolField (m : List (String × Json)) (k : String) : Except String Bool :=
  match lookupKey m k with
  | none => Except.ok false
  | some Json.null => Except.ok false
  | some (Json.bool b) => Except.ok b
  | some _ => Except.error ("cannot unmarshal field " ++ k)

/-- Go `json.Unmarshal` of one `map[string]any`-typed struct field. -/
def decodeMapField (m : List (String × Json)) (k : String) :
    Except String (List (String × Json)) :=
  match lookupKey m k with
  | none => Except.ok []
  | some Json.null => Except.ok []
  | some (Json.obj fields) => Except.ok fields
  | some _ => Except.error ("cannot unmarshal field " ++ k)

/-- `json.Unmarshal` into `types.ToolInput`. -/
def decodeToolInput (m : List (String × Json)) : Except String ToolInput := do
  let sid ← decodeStringField m "session_id"
  let tp ← decodeStringField m "transcript_path"
  let hen ← decodeStringField m "hook_event_name"
  let tn ← decodeStringField m "tool_name"
  let ti ← decodeMapField m "tool_input"
  Except.ok { SessionID := sid, TranscriptPath := tp, HookEventName := hen,
              ToolName := tn, ToolInputMap := ti }

/-- `json.Unmarshal` into `types.PostToolUseInput`. -/
def decodePostToolUseInput (m : List (String × Json)) : Except String PostToolUseInput := do
  let base ← decodeToolInput m
  let tr ← decodeMapField m "tool_response"
  Except.ok { toToolInput := base, ToolResponse := tr }

/-- `json.Unmarshal` into `types.NotificationInput`. -/
def decodeNotificationInput (m : List (String × Json)) : Except String NotificationInput := do
  let sid ← decodeStringField m "session_id"
  let tp ← decodeStringField m "transcript_path"
  let hen ← decodeStringField m "hook_event_name"
  let msg ← decodeStringField m "message"
  Except.ok { SessionID := sid, TranscriptPath := tp, HookEventName := hen, Message := msg }

/-- `json.Unmarshal` into `types.StopInput`. -/
def decodeStopInput (m : List (String × Json)) : Except String StopInput := do
  let sid ← decodeStringField m "session_id"
  let tp ← decodeStringField m "transcript_path"
  let hen ← decodeStringField m "hook_event_name"
  let sha ← decodeBoolField m "stop_hook_active"
  Except.ok { SessionID := sid, TranscriptPath := tp, HookEventName := hen,
              StopHookActive := sha }

/-- `json.Unmarshal` into `types.SubagentStopInput`. -/
def decodeSubagentStopInput (m : List (String × Json)) : Except String SubagentStopInput := do
  let sid ← decodeStringField m "session_id"
  let tp ← decodeStringField m "transcript_path"
  let hen ← decodeStringField m "hook_event_name"
  let sha ← decodeBoolField m "stop_hook_active"
  Except.ok { SessionID := sid, TranscriptPath := tp, HookEventName := hen,
              StopHookActive := sha }

/-- `types.IPlugin`: one method per event kind, each returning an optional
verdict and a Go error (`Option String`), plus the `Cleanup` lifecycle
method.  Method implementations are modelled as pure functions. -/
structure IPlugin where
  PreToolUse : ToolInput → Option PreToolUseOutput × Option String
  PostToolUse : PostToolUseInput → Option PostToolUseOutput × Option String
  Notification : NotificationInput → Option BaseHookOutput × Option String
  Stop : StopInput → Option StopOutput × Option String
  SubagentStop : SubagentStopInput → Option DecisionOutput × Option String
  Cleanup : Option String

/-- `main.checkBlockDecision`: re-decode the marshalled verdict bytes as a
generic key-map (which fails, returning nil, unless the value is a JSON
object; JSON `null` also leaves the map empty) and detect
`decision == "block"`, building the blocking `Result` from the `reason`
key (empty string when absent or not a string). -/
def checkBlockDecision (data : Json) : Option Result :=
  match data with
  | Json.obj m =>
    (match asString (lookupKey m "decision") with
      | some decision =>
        if decision = "block" then
          some { Code := ExitCodeBlockingError,
                 Error := ((asString (lookupKey m "reason")).getD "") ++ "\n" }
        else none
      | none => none)
  | _ => none

/-- `main.processPluginResult`.  The `result any` argument is modelled as
the `json.Marshal` image of the value the handler passes (a typed pointer:
`none` stands for a nil *interface*, which the handlers never actually
pass — they wrap typed pointers, and a nil typed pointer marshals to JSON
`null` via `marshalPtr`). -/
def processPluginResult (result : Option Json) (err : Option String) : Result :=
  match err with
  | some e => NewError e
  | none =>
    match result with
    | none => NewSuccess ""
    | some data =>
      match checkBlockDecision data with
      | some blockResult => blockResult
      | none => NewSuccess (encodeJson data)

/-- `main.withDefault`, specialised to the verdict types (all of which are
`DecisionOutput`): a nil pointer is replaced by the zero value with the
kind's `Default()` applied. -/
def withDefault (input : Option DecisionOutput)
    (defaultOf : DecisionOutput → DecisionOutput) : DecisionOutput :=
  match input with
  | some v => v
  | none => defaultOf {}

/-- `main.handlePreToolUse`. -/
def handlePreToolUse (inputData : List (String × Json)) (p : IPlugin) : Result :=
  match decodeToolInput inputData with
  | Except.error e => NewError ("invalid PreToolUse input: " ++ e)
  | Except.ok input =>
    let r := p.PreToolUse input
    processPluginResult
      (some (marshalPtr (some (marshalDecisionOutput
        (withDefault r.1 PreToolUseOutput.Default))))) r.2

/-- `main.handlePostToolUse`. -/
def handlePostToolUse (inputData : List (String × Json)) (p : IPlugin) : Result :=
  match decodePostToolUseInput inputData with
  | Except.error e => NewError ("invalid PostToolUse input: " ++ e)
  | Except.ok input =>
    let r := p.PostToolUse input
    processPluginResult
      (some (marshalPtr (some (marshalDecisionOutput
        (withDefault r.1 PostToolUseOutput.Default))))) r.2

/-- `main.handleNotification` (no defaulting: a nil verdict pointer is
passed through and marshals to JSON `null`). -/
def handleNotification (inputData : List (String × Json)) (p : IPlugin) : Result :=
  match decodeNotificationInput inputData with
  | Except.error e => NewError ("invalid Notification input: " ++ e)
  | Except.ok input =>
    let r := p.Notification input
    processPluginResult (some (marshalPtr (r.1.map marshalBaseFields))) r.2

/-- `main.handleStop`. -/
def handleStop (inputData : List (String × Json)) (p : IPlugin) : Result :=
  match decodeStopInput inputData with
  | Except.error e => NewError ("invalid Stop input: " ++ e)
  | Except.ok input =>
    let r := p.Stop input
    processPluginResult
      (some (marshalPtr (some (marshalDecisionOutput
        (withDefault r.1 StopOutput.Default))))) r.2

/-- `main.handleSubagentStop` (no defaulting). -/
def handleSubagentStop (inputData : List (String × Json)) (p : IPlugin) : Result :=
  match decodeSubagentStopInput inputData with
  | Except.error e => NewError ("invalid SubagentStop input: " ++ e)
  | Except.ok input =>
    let r := p.SubagentStop input
    processPluginResult (some (marshalPtr (r.1.map marshalDecisionOutput))) r.2

/-- `main.executePlugin`: look the handler up by the hook type string
(`main.hookHandlers`) and fail with `unknown hook type` when absent. -/
def executePlugin (hookType : String) (inputData : List (String × Json))
    (p : IPlugin) : Result :=
  if hookType = "PreToolUse" then handlePreToolUse inputData p
  else if hookType = "PostToolUse" then handlePostToolUse inputData p
  else if hookType = "Notification" then handleNotification inputData p
  else if hookType = "Stop" then handleStop inputData p
  else if hookType = "SubagentStop" then handleSubagentStop inputData p
  else NewError ("unknown hook type: " ++ hookType)

/-- `main.extractHookType`: `input["hook_event_name"].(string)`. -/
def extractHookType (input : List (String × Json)) : Except String String :=
  match asString (lookupKey input "hook_event_name") with
  | some hookType => Except.ok hookType
  | none => Except.error "missing or invalid hook_event_name"

/-- The plugin loop of `main.handleExecuteCommand`: run each plugin in
order, hand the first non-success result to the exit translator
immediately, otherwise remember the last result; the returned value is the
`Result` that reaches `ExitWithMessage` (`none` when the loop body never
ran and `lastResult` stayed nil). -/
def executeLoop (hookType : String) (inputData : List (String × Json)) :
    List IPlugin → Option Result → Option Result
  | [], lastResult => lastResult
  | p :: rest, _ =>
    let result := executePlugin hookType inputData p
    if result.IsSuccess then executeLoop hookType inputData rest (some result)
    else some result

/-- `main.handleExecuteCommand`, from the already-decoded stdin map: an
`Except.error` is a Go error returned to `run` (no plugin ran), an
`Except.ok` carries the `Result` handed to `ExitWithMessage`. -/
def handleExecuteCommand (input : List (String × Json)) (plugins : List IPlugin) :
    Except String (Option Result) :=
  if plugins.isEmpty then Except.error "no plugins loaded"
  else
    match extractHookType input with
    | Except.error e => Except.error e
    | Except.ok hookType => Except.ok (executeLoop hookType input plugins none)

/-- The observable behavior of the `execute` command end to end: a Go error
from `handleExecuteCommand` is printed by `main` as `error: ...` on stderr
with exit code `ExitCodeError`; otherwise the loop's `Result` goes through
`ExitWithMessage` (and a nil `lastResult` falls off `main` with exit 0). -/
def mainExecute (input : List (String × Json)) (plugins : List IPlugin) :
    Nat × Option (StdStream × String) :=
  match handleExecuteCommand input plugins with
  | Except.error e => (ExitCodeError, some (StdStream.stderr, "error: " ++ e ++ "\n"))
  | Except.ok none => (ExitCodeSuccess, none)
  | Except.ok (some r) => ((r.ExitWithMessage).2, (r.ExitWithMessage).1)

/-- Lookup in a Go map modelled as an association list with unique keys. -/
def lookupAssoc {α : Type} (m : List (String × α)) (k : String) : Option α :=
  (m.find? (fun p => p.1 == k)).map (fun p => p.2)

/-- Go `delete(m, k)` on an association list. -/
def removeAssoc {α : Type} (m : List (String × α)) (k : String) : List (String × α) :=
  m.filter (fun p => p.1 != k)

/-- `types.PluginManager`: the registry's name-to-instance and
name-to-path maps plus the configured plugin directory. -/
structure PluginManager where
  plugins : List (String × IPlugin)
  pluginPaths : List (String × String)
  pluginDir : String

/-- `types.NewPluginManager`. -/
def NewPluginManager (pluginDir : String) : PluginManager :=
  { plugins := [], pluginPaths := [], pluginDir := pluginDir }

/-- `(*types.PluginManager).UnloadPlugin`: returns the registry state
after the call together with the Go error.  A `Cleanup` failure returns
early, before the two `delete` statements. -/
def PluginManager.UnloadPlugin (pm : PluginManager) (name : String) :
    PluginManager × Option String :=
  match lookupAssoc pm.plugins name with
  | none => (pm, some ("plugin " ++ name ++ " not found"))
  | some pluginInstance =>
    match pluginInstance.Cleanup with
    | some e => (pm, some ("failed to cleanup plugin " ++ name ++ ": " ++ e))
    | none =>
      ({ pm with plugins := removeAssoc pm.plugins name,
                 pluginPaths := removeAssoc pm.pluginPaths name }, none)

/-- `(*types.PluginManager).Shutdown`: call `Cleanup` on every registered
plugin, collect the failures, clear both maps unconditionally, and return
the joined error (nil when no cleanup failed). -/
def PluginManager.Shutdown (pm : PluginManager) : PluginManager × Option String :=
  let errs := pm.plugins.filterMap (fun nameAndPlugin =>
    match nameAndPlugin.2.Cleanup with
    | some e =>
        some ("failed to cleanup plugin " ++ nameAndPlugin.1 ++ ": " ++ e)
    | none => none)
  let cleared := { pm with plugins := [], pluginPaths := [] }
  if errs.isEmpty then (cleared, none)
  else (cleared, some ("shutdown errors: " ++ String.intercalate "; " errs))

/-- The plugin's method for the event's kind returns, on the decoded
input, a verdict (no error) whose decision is `"block"` with the given
reason.  Only the four decision-bearing kinds can block: a
`Notification` verdict (`BaseHookOutput`) has no decision field at all. -/
def blocksWithReason (hookType : String) (input : List (String × Json))
    (p : IPlugin) (reason : String) : Prop :=
  (hookType = "PreToolUse" ∧ ∃ ti v, decodeToolInput input = Except.ok ti ∧
    p.PreToolUse ti = (some v, none) ∧ v.Decision = some "block" ∧ v.Reason = some reason) ∨
  (hookType = "PostToolUse" ∧ ∃ ti v, decodePostToolUseInput input = Except.ok ti ∧
    p.PostToolUse ti = (some v, none) ∧ v.Decision = some "block" ∧ v.Reason = some reason) ∨
  (hookType = "Stop" ∧ ∃ ti v, decodeStopInput input = Except.ok ti ∧
    p.Stop ti = (some v, none) ∧ v.Decision = some "block" ∧ v.Reason = some reason) ∨
  (hookType = "SubagentStop" ∧ ∃ ti v, decodeSubagentStopInput input = Except.ok ti ∧
    p.SubagentStop ti = (some v, none) ∧ v.Decision = some "block" ∧ v.Reason = some reason)

/-- The plugin's method for the event's kind returns, on the decoded
input, a non-nil error `e` (alongside an arbitrary, possibly absent,
verdict `r`). -/
def errorsOn (hookType : String) (input : List (String × Json))
    (p : IPlugin) (e : String) : Prop :=
  (hookType = "PreToolUse" ∧ ∃ ti r, decodeToolInput input = Except.ok ti ∧
    p.PreToolUse ti = (r, some e)) ∨
  (hookType = "PostToolUse" ∧ ∃ ti r, decodePostToolUseInput input = Except.ok ti ∧
    p.PostToolUse ti = (r, some e)) ∨
  (hookType = "Notification" ∧ ∃ ti r, decodeNotificationInput input = Except.ok ti ∧
    p.Notification ti = (r, some e)) ∨
  (hookType = "Stop" ∧ ∃ ti r, decodeStopInput input = Except.ok ti ∧
    p.Stop ti = (r, some e)) ∨
  (hookType = "SubagentStop" ∧ ∃ ti r, decodeSubagentStopInput input = Except.ok ti ∧
    p.SubagentStop ti = (r, some e))

/-- A plugin that has no opinion for any event and a clean `Cleanup`. -/
def trivialPlugin : IPlugin :=
  { PreToolUse := fun _ => (none, none)
    PostToolUse := fun _ => (none, none)
    Notification := fun _ => (none, none)
    Stop := fun _ => (none, none)
    SubagentStop := fun _ => (none, none)
    Cleanup := none }

/-- A plugin that blocks every `PreToolUse` event with reason `"nope"`. -/
def blockPlugin : IPlugin :=
  { trivialPlugin with PreToolUse := fun _ =>
      (some { Decision := some "block", Reason := some "nope" }, none) }

/-- A plugin whose `PreToolUse` method fails with the error `"boom"`
while also returning a blocking verdict (whose decision must be ignored). -/
def errorPlugin : IPlugin :=
  { trivialPlugin with PreToolUse := fun _ =>
      (some { Decision := some "block", Reason := some "ignored" }, some "boom") }

/-- A plugin whose `Cleanup` fails with the error `"boom"`. -/
def failingCleanupPlugin : IPlugin :=
  { trivialPlugin with Cleanup := some "boom" }

/-- A decoded stdin map for a minimal `PreToolUse` event. -/
def preEventInput : List (String × Json) :=
  [("hook_event_name", Json.str "PreToolUse")]

/-- A decoded stdin map whose kind tag is an unrecognized string. -/
def bogusEventInput : List (String × Json) :=
  [("hook_event_name", Json.str "Bogus")]

/-- A registry holding one plugin whose `Cleanup` fails. -/
def pmFailingCleanup : PluginManager :=
  { plugins := [("env.so", failingCleanupPlugin)],
    pluginPaths := [("env.so", "/tmp/env.so")],
    pluginDir := "" }

/-- A registry holding one plugin whose `Cleanup` succeeds. -/
def pmCleanCleanup : PluginManager :=
  { plugins := [("env.so", trivialPlugin)],
    pluginPaths := [("env.so", "/tmp/env.so")],
    pluginDir := "" }

/-- A `ToolInput` whose arguments carry a string `file_path`. -/
def toolInputWithPath : ToolInput :=
  { ToolName := "Read", ToolInputMap := [("file_path", Json.str "a.txt")] }

/-- A `ToolInput` whose arguments lack `file_path` entirely. -/
def toolInputWithoutPath : ToolInput :=
  { ToolName := "Read", ToolInputMap := [] }

theorem find?_marshalBaseFields_eq_none (o : BaseHookOutput) (k : String)
    (h1 : (("continue" : String) == k) = false)
    (h2 : (("stopReason" : String) == k) = false)
    (h3 : (("suppressOutput" : String) == k) = false) :
    (marshalBaseFields o).find? (fun q => q.1 == k) = none := by
  unfold marshalBaseFields
  rcases hC : o.Continue with _ | b <;>
    rcases eq_or_ne o.StopReason "" with hs | hs <;>
      rcases hsu : o.SuppressOutput <;>
        simp [List.find?_append, List.find?, hs, h1, h2, h3]

theorem find?_marshalBaseFields_decision (o : BaseHookOutput) :
    (marshalBaseFields o).find? (fun q => q.1 == "decision") = none :=
  find?_marshalBaseFields_eq_none o "decision" (by decide) (by decide) (by decide)

theorem find?_marshalBaseFields_reason (o : BaseHookOutput) :
    (marshalBaseFields o).find? (fun q => q.1 == "reason") = none :=
  find?_marshalBaseFields_eq_none o "reason" (by decide) (by decide) (by decide)

theorem lookup_marshal_decision (v : DecisionOutput) (d : String)
    (hd : v.Decision = some d) :
    lookupKey (marshalDecisionOutput v) "decision" = some (Json.str d) := by
  unfold lookupKey marshalDecisionOutput
  rw [hd, List.find?_append, List.find?_append, find?_marshalBaseFields_decision]
  rcases hR : v.Reason with _ | r <;> simp [List.find?]

theorem lookup_marshal_reason (v : DecisionOutput) (r : String)
    (hr : v.Reason = some r) :
    lookupKey (marshalDecisionOutput v) "reason" = some (Json.str r) := by
  unfold lookupKey marshalDecisionOutput
  rw [hr, List.find?_append, List.find?_append, find?_marshalBaseFields_reason]
  rcases hD : v.Decision with _ | d <;> simp [List.find?]

theorem checkBlockDecision_marshal_block (v : DecisionOutput) (reason : String)
    (hd : v.Decision = some "block") (hr : v.Reason = some reason) :
    checkBlockDecision (Json.obj (marshalDecisionOutput v))
      = some { Code := ExitCodeBlockingError, Error := reason ++ "\n" } := by
  have h1 := lookup_marshal_decision v "block" hd
  have h2 := lookup_marshal_reason v reason hr
  simp [checkBlockDecision, h1, h2, asString]

theorem executePlugin_blocks (hookType : String) (input : List (String × Json))
    (p : IPlugin) (reason : String)
    (hblock : blocksWithReason hookType input p reason) :
    executePlugin hookType input p
      = { Code := ExitCodeBlockingError, Error := reason ++ "\n" } := by
  have hcb := fun v hd hr => checkBlockDecision_marshal_block v reason hd hr
  rcases hblock with ⟨hht, ti, v, hdec, hcall, hd, hr⟩ | ⟨hht, ti, v, hdec, hcall, hd, hr⟩ |
    ⟨hht, ti, v, hdec, hcall, hd, hr⟩ | ⟨hht, ti, v, hdec, hcall, hd, hr⟩ <;>
    subst hht <;>
    simp [executePlugin, handlePreToolUse, handlePostToolUse, handleStop,
      handleSubagentStop, hdec, hcall, withDefault, marshalPtr,
      processPluginResult, hcb v hd hr]

theorem executeLoop_stops (hookType : String) (input : List (String × Json))
    (pre rest : List IPlugin) (p : IPlugin) (lastResult : Option Result)
    (hpre : ∀ q ∈ pre, (executePlugin hookType input q).IsSuccess = true)
    (hp : (executePlugin hookType input p).IsSuccess = false) :
    executeLoop hookType input (pre ++ p :: rest) lastResult
      = some (executePlugin hookType input p) := by
  induction pre generalizing lastResult with
  | nil => simp [executeLoop, hp]
  | cons q qs ih =>
    have hq : (executePlugin hookType input q).IsSuccess = true := hpre q (by simp)
    simp only [List.cons_append, executeLoop, hq, if_true]
    exact ih _ (fun x hx => hpre x (List.mem_cons_of_mem _ hx))

theorem executePlugin_errors (hookType : String) (input : List (String × Json))
    (p : IPlugin) (e : String) (herr : errorsOn hookType input p e) :
    executePlugin hookType input p = { Code := ExitCodeError, Error := e } := by
  rcases herr with ⟨hht, ti, r, hdec, hcall⟩ | ⟨hht, ti, r, hdec, hcall⟩ |
    ⟨hht, ti, r, hdec, hcall⟩ | ⟨hht, ti, r, hdec, hcall⟩ | ⟨hht, ti, r, hdec, hcall⟩ <;>
    subst hht <;>
    simp [executePlugin, handlePreToolUse, handlePostToolUse, handleNotification,
      handleStop, handleSubagentStop, hdec, hcall, processPluginResult, NewError]

theorem executePlugin_unknown (hookType : String) (input : List (String × Json))
    (p : IPlugin)
    (h1 : hookType ≠ "PreToolUse") (h2 : hookType ≠ "PostToolUse")
    (h3 : hookType ≠ "Notification") (h4 : hookType ≠ "Stop")
    (h5 : hookType ≠ "SubagentStop") :
    executePlugin hookType input p = NewError ("unknown hook type: " ++ hookType) := by
  simp [executePlugin, h1, h2, h3, h4, h5]

theorem ExitWithMessage_code (r : Result) : r.ExitWithMessage.2 = r.Code := by
  unfold Result.ExitWithMessage
  split <;> rfl

/-- C1: the spec says the Exit Translator prints the exitCode-0 payload to
standard output and the exitCode-1/2 payloads to standard error, then
terminates with that code.  The code routes exit 1 and 2 payloads to
stderr as specified, but the success branch of `Result.ExitWithMessage`
prints `r.Data` with `fmt.Fprintf(os.Stderr, r.Data)` (types.go line 195),
sending the exitCode-0 payload to standard error as well — contradicting
both the spec and the source's own comment on `ExitCodeSuccess`
("success: the stdout content is shown to the user").  Evaluated at the
failing input `Result{Code: 0, Data: "hello"}`. -/
theorem c1_success_payload_printed_to_stderr :
    Result.ExitWithMessage { Code := ExitCodeSuccess, Data := "hello" }
      = (some (StdStream.stderr, "hello"), ExitCodeSuccess) ∧
    Result.ExitWithMessage { Code := ExitCodeError, Error := "oops" }
      = (some (StdStream.stderr, "oops"), ExitCodeError) ∧
    Result.ExitWithMessage { Code := ExitCodeBlockingError, Error := "blocked" }
      = (some (StdStream.stderr, "blocked"), ExitCodeBlockingError) :=
  ⟨rfl, rfl, rfl⟩

/-- C2: if the k-th extension's verdict for the event has decision
`"block"` (and no error), the extensions after it are never invoked — the
loop's outcome is the same for every suffix `rest` — and the final outcome
has exitCode 2 with stderr payload equal to that extension's reason plus a
single trailing newline. -/
theorem c2_block_short_circuits (input : List (String × Json)) (hookType : String)
    (pre rest : List IPlugin) (p : IPlugin) (reason : String) (lastResult : Option Result)
    (htag : asString (lookupKey input "hook_event_name") = some hookType)
    (hpre : ∀ q ∈ pre, (executePlugin hookType input q).IsSuccess = true)
    (hblock : blocksWithReason hookType input p reason) :
    executeLoop hookType input (pre ++ p :: rest) lastResult
      = some { Code := ExitCodeBlockingError, Error := reason ++ "\n" } ∧
    mainExecute input (pre ++ p :: rest)
      = (ExitCodeBlockingError, some (StdStream.stderr, reason ++ "\n")) := by
  have hres := executePlugin_blocks hookType input p reason hblock
  have hfail : (executePlugin hookType input p).IsSuccess = false := by
    rw [hres]; rfl
  have hloop := executeLoop_stops hookType input pre rest p lastResult hpre hfail
  rw [hres] at hloop
  refine ⟨hloop, ?_⟩
  have hloop0 := executeLoop_stops hookType input pre rest p none hpre hfail
  rw [hres] at hloop0
  have hne : (pre ++ p :: rest).isEmpty = false := by simp
  have hlen2 : 0 < (reason ++ "\n").length := by
    rw [String.length_append]
    have h1 : ("\n" : String).length = 1 := rfl
    omega
  unfold mainExecute handleExecuteCommand extractHookType
  rw [htag]
  simp [hne, hloop0, Result.ExitWithMessage, Result.IsSuccess, hlen2,
    ExitCodeBlockingError, ExitCodeSuccess, ExitCodeError]
  intro _
  decide

/-- Witness for C2: a concrete chain where the first plugin blocks with
reason `"nope"` and a second plugin sits after it. -/
theorem c2_block_short_circuits_witness :
    executeLoop "PreToolUse" preEventInput ([] ++ blockPlugin :: [trivialPlugin]) none
      = some { Code := ExitCodeBlockingError, Error := "nope" ++ "\n" } ∧
    mainExecute preEventInput ([] ++ blockPlugin :: [trivialPlugin])
      = (ExitCodeBlockingError, some (StdStream.stderr, "nope" ++ "\n")) :=
  c2_block_short_circuits preEventInput "PreToolUse" [] [trivialPlugin] blockPlugin
    "nope" none rfl (by simp)
    (Or.inl ⟨rfl, { HookEventName := "PreToolUse" },
      { Decision := some "block", Reason := some "nope" }, rfl, rfl, rfl, rfl⟩)

/-- C4: when an extension's event-kind method returns a non-nil error,
the outcome is exitCode 1 with the error text as the stderr payload, the
verdict (`r` in `errorsOn`, arbitrary — decision fields are never
consulted) is ignored, and the remaining extensions (`rest`, arbitrary)
are not invoked. -/
theorem c4_plugin_error_yields_exit1 (input : List (String × Json)) (hookType : String)
    (pre rest : List IPlugin) (p : IPlugin) (e : String) (lastResult : Option Result)
    (htag : asString (lookupKey input "hook_event_name") = some hookType)
    (hpre : ∀ q ∈ pre, (executePlugin hookType input q).IsSuccess = true)
    (herr : errorsOn hookType input p e) :
    executeLoop hookType input (pre ++ p :: rest) lastResult
      = some { Code := ExitCodeError, Error := e } ∧
    mainExecute input (pre ++ p :: rest)
      = (ExitCodeError,
         if 0 < e.length then some (StdStream.stderr, e) else none) := by
  have hres := executePlugin_errors hookType input p e herr
  have hfail : (executePlugin hookType input p).IsSuccess = false := by
    rw [hres]; rfl
  have hloop := executeLoop_stops hookType input pre rest p lastResult hpre hfail
  rw [hres] at hloop
  refine ⟨hloop, ?_⟩
  have hloop0 := executeLoop_stops hookType input pre rest p none hpre hfail
  rw [hres] at hloop0
  have hne : (pre ++ p :: rest).isEmpty = false := by simp
  unfold mainExecute handleExecuteCommand extractHookType
  rw [htag]
  simp [hne, hloop0, Result.ExitWithMessage, Result.IsSuccess,
    ExitCodeBlockingError, ExitCodeSuccess, ExitCodeError]

/-- Witness for C4: a plugin that fails with error `"boom"` while also
returning a blocking verdict; the block decision is ignored and the
plugin after it is not invoked. -/
theorem c4_plugin_error_yields_exit1_witness :
    executeLoop "PreToolUse" preEventInput ([] ++ errorPlugin :: [trivialPlugin]) none
      = some { Code := ExitCodeError, Error := "boom" } ∧
    mainExecute preEventInput ([] ++ errorPlugin :: [trivialPlugin])
      = (ExitCodeError,
         if 0 < ("boom" : String).length then some (StdStream.stderr, "boom")
         else none) :=
  c4_plugin_error_yields_exit1 preEventInput "PreToolUse" [] [trivialPlugin]
    errorPlugin "boom" none rfl (by simp)
    (Or.inl ⟨rfl, { HookEventName := "PreToolUse" },
      some { Decision := some "block", Reason := some "ignored" }, rfl, rfl⟩)

theorem mainExecute_unknown_cons (input : List (String × Json)) (s : String)
    (p : IPlugin) (ps : List IPlugin)
    (htag : asString (lookupKey input "hook_event_name") = some s)
    (h1 : s ≠ "PreToolUse") (h2 : s ≠ "PostToolUse") (h3 : s ≠ "Notification")
    (h4 : s ≠ "Stop") (h5 : s ≠ "SubagentStop") :
    mainExecute input (p :: ps)
      = (ExitCodeError, some (StdStream.stderr, "unknown hook type: " ++ s)) := by
  have hep := executePlugin_unknown s input p h1 h2 h3 h4 h5
  have hfail : (executePlugin s input p).IsSuccess = false := by
    rw [hep]; rfl
  have hlen2 : 0 < ("unknown hook type: " ++ s).length := by
    rw [String.length_append]
    have hu : ("unknown hook type: " : String).length = 19 := rfl
    omega
  unfold mainExecute handleExecuteCommand extractHookType
  rw [htag]
  simp [executeLoop, hep, hfail, Result.ExitWithMessage, Result.IsSuccess,
    NewError, hlen2, ExitCodeError, ExitCodeSuccess]
  intro h0
  exact absurd h0 (by decide)

/-- C5: for an input whose `hook_event_name` is missing, not a string, or
not one of the five recognized kinds, the process exits with code 1 and no
extension event-kind method is ever invoked — the outcome is identical for
any other plugin list of the same length. -/
theorem c5_unrecognized_tag_exit1_no_invocation (input : List (String × Json))
    (plugins plugins2 : List IPlugin)
    (hbad : ∀ s, asString (lookupKey input "hook_event_name") = some s →
      s ≠ "PreToolUse" ∧ s ≠ "PostToolUse" ∧ s ≠ "Notification" ∧
      s ≠ "Stop" ∧ s ≠ "SubagentStop")
    (hlen : plugins2.length = plugins.length) :
    (mainExecute input plugins).1 = ExitCodeError ∧
    mainExecute input plugins2 = mainExecute input plugins := by
  rcases plugins with _ | ⟨p, ps⟩
  · have h2 : plugins2 = [] := List.length_eq_zero.mp (by simpa using hlen)
    subst h2
    exact ⟨rfl, rfl⟩
  · rcases plugins2 with _ | ⟨q, qs⟩
    · simp at hlen
    · rcases htag : asString (lookupKey input "hook_event_name") with _ | s
      · have herr : extractHookType input = Except.error "missing or invalid hook_event_name" := by
          unfold extractHookType; rw [htag]
        constructor
        · simp [mainExecute, handleExecuteCommand, herr, ExitCodeError]
        · simp [mainExecute, handleExecuteCommand, herr]
      · obtain ⟨h1, h2, h3, h4, h5⟩ := hbad s htag
        have ha := mainExecute_unknown_cons input s p ps htag h1 h2 h3 h4 h5
        have hb := mainExecute_unknown_cons input s q qs htag h1 h2 h3 h4 h5
        rw [ha, hb]
        exact ⟨rfl, rfl⟩

/-- Witness for C5: the tag `"Bogus"` with two different single-plugin
lists yields exit code 1 and the same outcome regardless of the plugin. -/
theorem c5_unrecognized_tag_witness :
    (mainExecute bogusEventInput [trivialPlugin]).1 = ExitCodeError ∧
    mainExecute bogusEventInput [blockPlugin]
      = mainExecute bogusEventInput [trivialPlugin] :=
  c5_unrecognized_tag_exit1_no_invocation bogusEventInput [trivialPlugin] [blockPlugin]
    (fun s hs => by
      rw [show asString (lookupKey bogusEventInput "hook_event_name")
            = some "Bogus" from rfl] at hs
      cases Option.some.inj hs
      exact ⟨by decide, by decide, by decide, by decide, by decide⟩)
    rfl

/-- C6: for a `PreToolUse` event where the extension returns an absent
verdict (nil, no error), the synthesized default verdict has decision
`"approve"` and continueProcessing true, and the outcome has exitCode 0 —
both for the single plugin processing step and end to end. -/
theorem c6_pretooluse_default_approves (input : List (String × Json))
    (p : IPlugin) (ti : ToolInput)
    (htag : asString (lookupKey input "hook_event_name") = some "PreToolUse")
    (hdecode : decodeToolInput input = Except.ok ti)
    (hnil : p.PreToolUse ti = (none, none)) :
    (withDefault none PreToolUseOutput.Default).Decision = some "approve" ∧
    (withDefault none PreToolUseOutput.Default).Continue = some true ∧
    (executePlugin "PreToolUse" input p).Code = ExitCodeSuccess ∧
    (mainExecute input [p]).1 = ExitCodeSuccess := by
  have hcbd : checkBlockDecision (Json.obj (marshalDecisionOutput
      (withDefault none PreToolUseOutput.Default))) = none := rfl
  have hres : executePlugin "PreToolUse" input p
      = NewSuccess (encodeJson (Json.obj (marshalDecisionOutput
          (withDefault none PreToolUseOutput.Default)))) := by
    simp [executePlugin, handlePreToolUse, hdecode, hnil, marshalPtr,
      processPluginResult, hcbd]
  refine ⟨rfl, rfl, by rw [hres]; rfl, ?_⟩
  have hsucc : (executePlugin "PreToolUse" input p).IsSuccess = true := by
    rw [hres]; rfl
  unfold mainExecute handleExecuteCommand extractHookType
  rw [htag]
  simp [executeLoop, hsucc, ExitWithMessage_code, hres, NewSuccess,
    ExitCodeSuccess]

/-- Witness for C6: the trivial plugin on a minimal `PreToolUse` event. -/
theorem c6_pretooluse_default_approves_witness :
    (withDefault none PreToolUseOutput.Default).Decision = some "approve" ∧
    (withDefault none PreToolUseOutput.Default).Continue = some true ∧
    (executePlugin "PreToolUse" preEventInput trivialPlugin).Code = ExitCodeSuccess ∧
    (mainExecute preEventInput [trivialPlugin]).1 = ExitCodeSuccess :=
  c6_pretooluse_default_approves preEventInput trivialPlugin
    { HookEventName := "PreToolUse" } rfl rfl rfl

/-- C7: `Shutdown` clears both registry maps unconditionally — regardless
of any `Cleanup` failures — and a second `Shutdown` call on the resulting
registry returns no error. -/
theorem c7_shutdown_clears_and_idempotent (pm : PluginManager) :
    pm.Shutdown.1.plugins = [] ∧ pm.Shutdown.1.pluginPaths = [] ∧
    (pm.Shutdown.1).Shutdown.2 = none := by
  have h1 : pm.Shutdown.1 = { pm with plugins := [], pluginPaths := [] } := by
    unfold PluginManager.Shutdown
    dsimp only
    split <;> rfl
  rw [h1]
  exact ⟨rfl, rfl, rfl⟩

/-- C8: a `Verdict` whose decision field was never set serializes with no
`decision` key at all — decoding the encoded object as a generic key-map
finds nothing under `"decision"` (absence, not null), thanks to the
`omitzero` tag on the nil pointer field. -/
theorem c8_unset_decision_absent_from_encoding (v : DecisionOutput)
    (h : v.Decision = none) :
    lookupKey (marshalDecisionOutput v) "decision" = none := by
  unfold lookupKey marshalDecisionOutput
  rw [h, List.find?_append, List.find?_append, find?_marshalBaseFields_decision]
  rcases hR : v.Reason with _ | r <;> simp [List.find?]

/-- Witness for C8: the zero-valued verdict. -/
theorem c8_unset_decision_absent_witness :
    lookupKey (marshalDecisionOutput {}) "decision" = none :=
  c8_unset_decision_absent_from_encoding {} rfl

/-- Counterexample to C9: `PostToolUseOutput.Block("")` — a provided
constructor of a decision-bearing kind — produces decision `"block"` with
an empty (not fallback-replaced) reason, refuting "decision == block
implies the reason field is non-empty". -/
theorem c9_counterexample_empty_block_reason :
    (PostToolUseOutput.Block {} "").Decision = some "block" ∧
    (PostToolUseOutput.Block {} "").Reason = some "" :=
  ⟨rfl, rfl⟩

/-- C9 (amended): the block-producing constructors of the decision-bearing
kinds always leave the reason *present* (a non-nil pointer), but not
necessarily non-empty: `PreToolUseOutput.Approve(false, ...)` falls back
to `"rejected"` only when no message argument is supplied at all, while
`PostToolUseOutput.Block` and `StopOutput.NotAllowed` store the given
message verbatim, empty or not. -/
theorem c9_amended_block_reason_present (o1 o2 o3 : DecisionOutput)
    (msg : List String) (m2 m3 : String) :
    ((PreToolUseOutput.Approve o1 false msg).Decision = some "block" ∧
     (PreToolUseOutput.Approve o1 false msg).Reason = some (msg.headD "rejected")) ∧
    ((PostToolUseOutput.Block o2 m2).Decision = some "block" ∧
     (PostToolUseOutput.Block o2 m2).Reason = some m2) ∧
    ((StopOutput.NotAllowed o3 m3).Decision = some "block" ∧
     (StopOutput.NotAllowed o3 m3).Reason = some m3) := by
  refine ⟨⟨?_, ?_⟩, ⟨rfl, rfl⟩, ⟨rfl, rfl⟩⟩ <;>
    rcases msg with _ | ⟨m, ms⟩ <;>
      simp [PreToolUseOutput.Approve, List.headD]

theorem lookupAssoc_removeAssoc {α : Type} (m : List (String × α)) (k : String) :
    lookupAssoc (removeAssoc m k) k = none := by
  unfold lookupAssoc removeAssoc
  rw [List.find?_eq_none.mpr]
  · rfl
  · intro x hx
    have hne := (List.mem_filter.mp hx).2
    simpa using hne

/-- Counterexample to C3: unloading a plugin whose `Cleanup` fails
returns the cleanup error *and leaves the plugin registered* —
`UnloadPlugin` returns before its `delete` statements — refuting "a
Cleanup failure never prevents the removal". -/
theorem c3_counterexample_failed_cleanup_not_removed :
    (pmFailingCleanup.UnloadPlugin "env.so").2
      = some "failed to cleanup plugin env.so: boom" ∧
    lookupAssoc (pmFailingCleanup.UnloadPlugin "env.so").1.plugins "env.so"
      = some failingCleanupPlugin ∧
    lookupAssoc (pmFailingCleanup.UnloadPlugin "env.so").1.pluginPaths "env.so"
      = some "/tmp/env.so" :=
  ⟨rfl, rfl, rfl⟩

/-- C3 (amended): `UnloadPlugin(name)` first calls the instance's
`Cleanup`; only when `Cleanup` succeeds is the instance removed from both
registry maps; when `Cleanup` fails, the error is reported and the
registry is left unchanged — the instance stays registered. -/
theorem c3_amended_unload_removes_only_on_clean_cleanup (pm : PluginManager)
    (name : String) (inst : IPlugin)
    (hfound : lookupAssoc pm.plugins name = some inst) :
    (inst.Cleanup = none →
      (pm.UnloadPlugin name).2 = none ∧
      lookupAssoc (pm.UnloadPlugin name).1.plugins name = none ∧
      lookupAssoc (pm.UnloadPlugin name).1.pluginPaths name = none) ∧
    (∀ e, inst.Cleanup = some e →
      (pm.UnloadPlugin name).1 = pm ∧
      (pm.UnloadPlugin name).2
        = some ("failed to cleanup plugin " ++ name ++ ": " ++ e)) := by
  constructor
  · intro hclean
    have hu : pm.UnloadPlugin name
        = ({ pm with plugins := removeAssoc pm.plugins name,
                     pluginPaths := removeAssoc pm.pluginPaths name }, none) := by
      unfold PluginManager.UnloadPlugin
      rw [hfound]
      dsimp only
      rw [hclean]
    rw [hu]
    exact ⟨rfl, lookupAssoc_removeAssoc _ _, lookupAssoc_removeAssoc _ _⟩
  · intro e hclean
    have hu : pm.UnloadPlugin name
        = (pm, some ("failed to cleanup plugin " ++ name ++ ": " ++ e)) := by
      unfold PluginManager.UnloadPlugin
      rw [hfound]
      dsimp only
      rw [hclean]
    rw [hu]
    exact ⟨rfl, rfl⟩

/-- Witness for the amended C3: a clean `Cleanup` removes the plugin from
both maps with no error. -/
theorem c3_amended_unload_witness :
    (pmCleanCleanup.UnloadPlugin "env.so").2 = none ∧
    lookupAssoc (pmCleanCleanup.UnloadPlugin "env.so").1.plugins "env.so" = none ∧
    lookupAssoc (pmCleanCleanup.UnloadPlugin "env.so").1.pluginPaths "env.so" = none :=
  (c3_amended_unload_removes_only_on_clean_cleanup pmCleanCleanup "env.so"
    trivialPlugin rfl).1 rfl

/-- C10: the file-path accessor is total: it returns the stored string
when `tool_input` maps `"file_path"` to a string, and the empty string
when the key is absent or maps to a non-string value. -/
theorem c10_getFilePath_total (t : ToolInput) (s : String) :
    (lookupKey t.ToolInputMap "file_path" = some (Json.str s) →
      t.GetFilePath = s) ∧
    ((∀ s2 : String, lookupKey t.ToolInputMap "file_path" ≠ some (Json.str s2)) →
      t.GetFilePath = "") := by
  constructor
  · intro h
    simp [ToolInput.GetFilePath, h, asString]
  · intro h
    unfold ToolInput.GetFilePath
    rcases hl : lookupKey t.ToolInputMap "file_path" with _ | j
    · rfl
    · rcases j with _ | b | s2 | n | xs | fs
      · rfl
      · rfl
      · exact absurd hl (h s2)
      · rfl
      · rfl
      · rfl

/-- Witness for C10: a present string path is returned verbatim, a
missing key yields the empty string. -/
theorem c10_getFilePath_total_witness :
    toolInputWithPath.GetFilePath = "a.txt" ∧
    toolInputWithoutPath.GetFilePath = "" :=
  ⟨(c10_getFilePath_total toolInputWithPath "a.txt").1 rfl,
   (c10_getFilePath_total toolInputWithoutPath "").2
     (fun _ h => Option.noConfusion h)⟩

end ClaudeHooks
